import Mathlib

/-!
# SimpleTTS — verification of the request/file-lifecycle subsystem

Shallow embedding of the SimpleTTS backend (`src/backend/main.py`,
`src/backend/models.py`, `src/backend/database.py`) in Lean 4, together with
theorems settling the specification claims about upload normalization,
validation, batch processing, output deletion, zip creation, download id
cleaning and the retention sweep.

Conventions of the embedding:
* file contents are byte lists (`List Nat`, each element `< 256` where relevant);
* decoded text is a list of Unicode scalar values (`List Nat`);
* names and identifiers are Lean `String`s;
* the SQLAlchemy session (`get_db` yields a session that is closed — and
  therefore rolled back — without commit, `database.py` lines 60-65) is made
  explicit: endpoint models distinguish records *committed* to the database
  from records merely *pending* in the session, and pending records are
  discarded when an endpoint aborts with an exception;
* exceptions (`HTTPException` and the generic 500 handler) are `Except` errors.
-/

/-- Error taxonomy of the HTTP layer as raised by the endpoints under study. -/
inductive ApiError where
  /-- HTTP 404, carries the id named in the detail message. -/
  | notFound (id : String)
  /-- HTTP 413 (payload or text too large). -/
  | payloadTooLarge
  /-- HTTP 400 (bad file type / failed UTF-8 conversion). -/
  | badRequest
  /-- HTTP 500 (uncaught exception converted by the generic handler). -/
  | internalError
  deriving DecidableEq, Repr

/-- Is an `Except` value a success? -/
def isOkE {ε α : Type} : Except ε α → Bool
  | .ok _ => true
  | .error _ => false

/-! ## `/download/{output_id}` — `download_file`, `main.py` lines 514-546

`clean_id = output_id.replace('.mp3', '')`: Python `str.replace` removes the
occurrences of `".mp3"` found in one left-to-right, non-overlapping scan.
`stripMp3` is that scan on the character list. -/

/-- One left-to-right non-overlapping pass removing `".mp3"`, the semantics of
Python `output_id.replace('.mp3', '')`. -/
def stripMp3 : List Char → List Char
  | [] => []
  | [a] => [a]
  | [a, b] => [a, b]
  | [a, b, c] => [a, b, c]
  | a :: b :: c :: d :: rest =>
    if a = '.' ∧ b = 'm' ∧ c = 'p' ∧ d = '3' then stripMp3 rest
    else a :: stripMp3 (b :: c :: d :: rest)
termination_by l => l.length

/-- `clean_id` of `download_file` as a `String` operation. -/
def cleanId (outputId : String) : String :=
  String.mk (stripMp3 outputId.toList)

/-- One `TTSGeneration` row (`database.py` lines 29-44). -/
structure TTSGeneration where
  outputId : String
  fileId : Option String
  voice : String
  textLength : Nat
  rate : String
  volume : String
  pitch : String
  originalName : Option String
  isBatch : Bool
  batchId : Option String
  isDeleted : Bool
  deriving DecidableEq, Repr

/-- ASCII lower-casing of a string, the effect of Python `str.lower()` on the
ASCII names handled here. -/
def asciiLower (s : String) : String :=
  String.mk (s.toList.map Char.toLower)

/-- `pathlib.Path(name).stem`: the final component without its last suffix; a
dot that is the first or the last character does not start a suffix. -/
def pathStem (s : String) : String :=
  let cs := s.toList
  let idxs := (List.range cs.length).filter (fun i => cs.getD i ' ' = '.')
  match idxs.getLast? with
  | none => s
  | some i => if i = 0 ∨ i + 1 = cs.length then s else String.mk (cs.take i)

/-- The download filename chosen by `download_file` (`main.py` lines 529-538):
the `original_name` of the matching generation row when present and non-empty,
given an `.mp3` suffix, else `clean_id + ".mp3"`. -/
def downloadName (gens : List TTSGeneration) (clean : String) : String :=
  match gens.find? (fun g => g.outputId = clean) with
  | some g =>
    match g.originalName with
    | some n =>
      if n = "" then clean ++ ".mp3"
      else if (asciiLower n).endsWith ".mp3" then n
      else pathStem n ++ ".mp3"
    | none => clean ++ ".mp3"
  | none => clean ++ ".mp3"

/-- `download_file` (`main.py` lines 514-546): clean the id, resolve
`{clean_id}.mp3` in the output store (the set of file names present in
`output_dir`), 404 when absent, else serve the file under the chosen
download name. -/
def download_file (outputStore : List String) (gens : List TTSGeneration)
    (outputId : String) : Except ApiError (String × String) :=
  let clean := cleanId outputId
  if (clean ++ ".mp3") ∈ outputStore then
    .ok (clean ++ ".mp3", downloadName gens clean)
  else
    .error (.notFound (clean ++ ".mp3"))

/-! ## `/create-zip` — `create_zip`, `main.py` lines 468-512

The loop resolves `{file_id}.mp3` for each requested id, `continue`s on a
missing file (logging a warning), and writes the rest into the archive in
request order. There is no 404 path. -/

/-- The archive entry list built by the `create_zip` loop. -/
def zipEntries (outputStore : List String) : List String → List String
  | [] => []
  | fid :: rest =>
    if (fid ++ ".mp3") ∈ outputStore then (fid ++ ".mp3") :: zipEntries outputStore rest
    else zipEntries outputStore rest

/-- `create_zip` (`main.py` lines 468-512): always answers with an archive,
never with `NotFound`. -/
def create_zip (outputStore : List String) (fileIds : List String) :
    Except ApiError (List String) :=
  .ok (zipEntries outputStore fileIds)

/-! ## `TTSRequest` text validation — `models.py` lines 14-29

pydantic v1 applies the `Field` constraints (`min_length=1`,
`max_length=settings.max_text_length`) to the raw string first, then the
`@validator('text')`: reject when `v.strip()` is empty, else drop the
characters `<ANGLE> " ' &` and return the stripped result. -/

/-- The whitespace set of Python `str.strip()` restricted to ASCII (the
codepoints 9-13 and 32). -/
def pyIsSpace (c : Char) : Bool :=
  c = ' ' ∨ c = Char.ofNat 9 ∨ c = Char.ofNat 10 ∨ c = Char.ofNat 11 ∨
    c = Char.ofNat 12 ∨ c = Char.ofNat 13

/-- Python `str.strip()`: drop whitespace from both ends. -/
def pyStrip (l : List Char) : List Char :=
  ((l.dropWhile pyIsSpace).reverse.dropWhile pyIsSpace).reverse

/-- The character class `[<>"'&]` removed by `validate_text`. -/
def dangerousChar (c : Char) : Bool :=
  c = Char.ofNat 60 ∨ c = Char.ofNat 62 ∨ c = Char.ofNat 34 ∨
    c = Char.ofNat 39 ∨ c = Char.ofNat 38

/-- Validation of `TTSRequest.text` (`models.py` lines 15 and 22-29): the
`Field` length window followed by the `validate_text` validator. -/
def validateTTSText (maxTextLength : Nat) (t : List Char) :
    Except ApiError (List Char) :=
  if t.length < 1 then .error .badRequest
  else if maxTextLength < t.length then .error .badRequest
  else if pyStrip t = [] then .error .badRequest
  else .ok (pyStrip (t.filter (fun c => ¬ dangerousChar c)))

/-! ## Encoding normalization — `upload_file`, `main.py` lines 270-291

`chardet.detect` supplies a label; when the label is present and not `utf-8`
(case-insensitively), the bytes are decoded with the label's codec and the
decoded text is written back out encoded as UTF-8; a decode failure turns into
HTTP 400. When the label is absent or is `utf-8`, the raw bytes are copied
unchanged. The external codecs are a parameter `decodeExt`; the UTF-8 encoder
used for the re-encoding is implemented concretely below so that round-trip
fidelity is a theorem, not an assumption. -/

/-- A Unicode scalar value: in range and not a surrogate. Python `str` values
produced by a successful `bytes.decode` consist of such scalars. -/
def validScalar (c : Nat) : Prop :=
  c < 0x110000 ∧ ¬ (0xD800 ≤ c ∧ c < 0xE000)

instance (c : Nat) : Decidable (validScalar c) := by
  unfold validScalar; infer_instance

/-- Standard UTF-8 encoding of one scalar value (1-4 bytes). -/
def utf8EncodeChar (c : Nat) : List Nat :=
  if c < 0x80 then [c]
  else if c < 0x800 then [0xC0 + c / 64, 0x80 + c % 64]
  else if c < 0x10000 then
    [0xE0 + c / 4096, 0x80 + c / 64 % 64, 0x80 + c % 64]
  else
    [0xF0 + c / 262144, 0x80 + c / 4096 % 64, 0x80 + c / 64 % 64, 0x80 + c % 64]

/-- UTF-8 encoding of a scalar sequence. -/
def utf8Encode (t : List Nat) : List Nat :=
  t.flatMap utf8EncodeChar

/-- Is a byte a UTF-8 continuation byte (`10xxxxxx`)? -/
def contByte (b : Nat) : Prop :=
  0x80 ≤ b ∧ b < 0xC0

instance (b : Nat) : Decidable (contByte b) := by
  unfold contByte; infer_instance

/-- Strict UTF-8 decoding: rejects stray continuation bytes, truncated
sequences, overlong forms, surrogates and out-of-range scalars. -/
def utf8Decode : List Nat → Option (List Nat)
  | [] => some []
  | b :: rest =>
    if b < 0x80 then (utf8Decode rest).map (b :: ·)
    else if b < 0xC2 then none
    else if b < 0xE0 then
      match rest with
      | b2 :: rest2 =>
        if contByte b2 then
          (utf8Decode rest2).map (((b - 0xC0) * 64 + (b2 - 0x80)) :: ·)
        else none
      | [] => none
    else if b < 0xF0 then
      match rest with
      | b2 :: b3 :: rest3 =>
        if contByte b2 ∧ contByte b3 then
          let c := (b - 0xE0) * 4096 + (b2 - 0x80) * 64 + (b3 - 0x80)
          if c < 0x800 ∨ (0xD800 ≤ c ∧ c < 0xE000) then none
          else (utf8Decode rest3).map (c :: ·)
        else none
      | _ => none
    else if b < 0xF5 then
      match rest with
      | b2 :: b3 :: b4 :: rest4 =>
        if contByte b2 ∧ contByte b3 ∧ contByte b4 then
          let c := (b - 0xF0) * 262144 + (b2 - 0x80) * 4096 +
            (b3 - 0x80) * 64 + (b4 - 0x80)
          if c < 0x10000 ∨ 0x110000 ≤ c then none
          else (utf8Decode rest4).map (c :: ·)
        else none
      | _ => none
    else none

/-- The encoding-normalization step of `upload_file` (`main.py` lines 270-291).
`detected` is the label from `chardet.detect`; `decodeExt lbl bytes` is the
Python codec machinery for that label (`bytes.decode(lbl)`), `none` meaning the
decode raised. -/
def normalizeUpload (detected : Option String)
    (decodeExt : String → List Nat → Option (List Nat))
    (content : List Nat) : Except ApiError (List Nat) :=
  match detected with
  | none => .ok content
  | some enc =>
    if asciiLower enc ≠ "utf-8" then
      match decodeExt enc content with
      | some text => .ok (utf8Encode text)
      | none => .error .badRequest
    else .ok content

/-- ISO-8859-1 (`latin-1`) decoding: every byte maps to the scalar of the same
value; fails only on a value outside the byte range. Used to instantiate
`decodeExt` in witnesses. -/
def latin1Decode (bs : List Nat) : Option (List Nat) :=
  if bs.all (· < 256) then some bs else none

/-! ## `/upload` — `upload_file`, `main.py` lines 240-319

The handler body in order: `validate_file_size` (`main.py` lines 151-164,
413 when `len(content)` exceeds `max_file_size_mb * 1024 * 1024`),
`validate_file_type` (lines 166-177, 400), then id allocation, filename
sanitization via `re.sub(r'[^\w\-_\.]', '_', original_filename)` — note that
`main.py` never imports `re` (lines 1-39), so this line raises `NameError`,
which the `except Exception` arm converts to HTTP 500 — then the raw file
write, the normalization step, the normalized file write and the
`FileUpload` record insert. The flag `reImported` makes the module-namespace
lookup of `re` explicit. -/

/-- A stored file: on-disk name and content bytes. -/
structure StoredFile where
  name : String
  content : List Nat
  deriving DecidableEq, Repr

/-- One `FileUpload` row (`database.py` lines 17-27). -/
structure FileUpload where
  id : String
  filename : String
  originalFilename : String
  fileSize : Nat
  encoding : Option String
  isDeleted : Bool
  deriving DecidableEq, Repr

/-- The mutable state touched by `/upload`: the upload directory and the
committed `file_uploads` table. -/
structure UploadState where
  uploadFiles : List StoredFile
  uploads : List FileUpload
  deriving DecidableEq, Repr

/-- Names bound by the import section of `main.py` (lines 1-39) that the
upload path needs; `re` is absent there. -/
def mainModuleImports : List String :=
  ["os", "chardet", "nltk", "tempfile", "asyncio", "aiofiles", "uuid",
   "zipfile", "io", "logging", "traceback", "datetime", "timedelta",
   "lru_cache", "asynccontextmanager", "FastAPI", "UploadFile", "File",
   "Form", "HTTPException", "BackgroundTasks", "Depends", "Request",
   "FileResponse", "StreamingResponse", "CORSMiddleware", "StaticFiles",
   "get_openapi", "Session", "Limiter", "get_remote_address",
   "RateLimitExceeded", "edge_tts", "shutil", "Path", "json", "settings",
   "verify_credentials", "optional_auth", "get_db", "create_tables",
   "FileUpload", "TTSGeneration", "BatchProcess", "TTSRequest",
   "BatchProcessRequest", "VoiceInfo", "ProcessedFilesInfo",
   "UploadResponse", "TTSResponse", "BatchProcessResponse", "ErrorResponse",
   "FileContentResponse", "SuccessResponse"]

/-- The character class kept by `re.sub(r'[^\w\-_\.]', '_', name)`: word
characters (ASCII view of `\w`), hyphen, underscore, dot. -/
def allowedFilenameChar (c : Char) : Bool :=
  c.isAlphanum ∨ c = '_' ∨ c = '-' ∨ c = '.'

/-- The sanitization `re.sub(r'[^\w\-_\.]', '_', original_filename)`
(`main.py` line 261): every character outside the class becomes `_`. -/
def sanitizeFilename (name : String) : String :=
  String.mk (name.toList.map (fun c => if allowedFilenameChar c then c else '_'))

/-- `upload_file` (`main.py` lines 240-319). `typeOk` is the outcome of
`validate_file_type`; `reImported` is whether the name `re` resolves in the
module namespace (it does not, per `mainModuleImports`). -/
def upload_file (maxFileSizeMb : Nat) (reImported : Bool)
    (detected : Option String)
    (decodeExt : String → List Nat → Option (List Nat))
    (fileId : String) (originalFilename : String) (typeOk : Bool)
    (content : List Nat) (st : UploadState) :
    UploadState × Except ApiError (String × String) :=
  if maxFileSizeMb * 1024 * 1024 < content.length then
    (st, .error .payloadTooLarge)
  else if ¬ typeOk then
    (st, .error .badRequest)
  else if ¬ reImported then
    (st, .error .internalError)
  else
    let safe := sanitizeFilename originalFilename
    let st1 : UploadState :=
      { st with uploadFiles :=
          st.uploadFiles ++ [⟨fileId ++ "_" ++ safe, content⟩] }
    match normalizeUpload detected decodeExt content with
    | .error e => (st1, .error e)
    | .ok utf8Bytes =>
      let st2 : UploadState :=
        { uploadFiles :=
            st1.uploadFiles ++ [⟨fileId ++ "_utf8_" ++ safe, utf8Bytes⟩],
          uploads := st1.uploads ++
            [⟨fileId, safe, originalFilename, content.length, detected, false⟩] }
      (st2, .ok (fileId, safe))

/-! ## `/batch-process` — `batch_process`, `main.py` lines 372-466

Structure of the handler: commit a `BatchProcess` row (lines 388-397); then,
for each file id in request order: glob `{file_id}_utf8_*` in the upload
directory and take the first hit, 404 when none (lines 401-405); read the file
through `safe_file_read` (UTF-8 decode, HTTP 400 on decode failure, HTTP 413
past `max_text_length`); run the engine (an uncaught engine exception becomes
HTTP 500 via the outer `except Exception`); stage a `TTSGeneration` row with
`db.add` — *without* commit. Only after the whole loop does the handler set
`is_completed` and commit (lines 450-452); on any abort the session is closed
uncommitted by `get_db`, so staged generation rows are discarded, while output
files already written by the engine stay on disk. -/

/-- One `BatchProcess` row (`database.py` lines 46-57). -/
structure BatchProcess where
  batchId : String
  fileCount : Nat
  voice : String
  rate : String
  volume : String
  pitch : String
  isCompleted : Bool
  deriving DecidableEq, Repr

/-- The committed database contents relevant to batch processing. -/
structure Db where
  generations : List TTSGeneration
  batches : List BatchProcess
  deriving DecidableEq, Repr

/-- The request body of `/batch-process` (`models.py` lines 53-75). -/
structure BatchRequest where
  fileIds : List String
  voice : String
  rate : String
  volume : String
  pitch : String
  deriving DecidableEq, Repr

/-- A character of the class `[a-f0-9\-]` of the file-id pattern. -/
def isUuidChar (c : Char) : Bool :=
  ('a' ≤ c ∧ c ≤ 'f') ∨ c.isDigit ∨ c = '-'

/-- `re.match(r'^[a-f0-9\-]{36}$', s)` (`models.py` line 64): 36 characters of
the class; `$` also tolerates one trailing newline. -/
def matchesUuidPattern (s : String) : Bool :=
  let cs := s.toList
  (cs.length = 36 ∧ cs.all isUuidChar) ∨
    (cs.length = 37 ∧ cs.getLast? = some (Char.ofNat 10) ∧
      (cs.take 36).all isUuidChar)

/-- A character of the voice-name class `[a-zA-Z0-9\-_]`. -/
def isVoiceChar (c : Char) : Bool :=
  c.isAlphanum ∨ c = '-' ∨ c = '_'

/-- `^[+-]\d+%$`-style prosody pattern: a sign, one or more digits, a unit. -/
def matchesNumUnit (unit : String) (s : String) : Bool :=
  match s.toList with
  | [] => false
  | c :: rest =>
    let u := unit.toList
    let ds := rest.take (rest.length - u.length)
    (c = '+' ∨ c = '-') ∧ rest.drop (rest.length - u.length) = u ∧
      ds ≠ [] ∧ ds.all Char.isDigit

/-- pydantic validation of `BatchProcessRequest` (`models.py` lines 53-75):
1-50 file ids all matching the uuid pattern, a non-blank voice of the voice
class, prosody fields matching their patterns. When it fails, FastAPI answers
422 and the handler body never runs. -/
def validBatchRequest (req : BatchRequest) : Bool :=
  1 ≤ req.fileIds.length ∧ req.fileIds.length ≤ 50 ∧
    req.fileIds.all matchesUuidPattern ∧
    pyStrip req.voice.toList ≠ [] ∧ req.voice.toList.all isVoiceChar ∧
    matchesNumUnit "%" req.rate ∧ matchesNumUnit "%" req.volume ∧
    matchesNumUnit "Hz" req.pitch

/-- The read loop of `safe_file_read` (`main.py` lines 190-212) on the decoded
character stream: accumulate 8192-character chunks while shorter than
`maxSize`; raise 413 the moment the accumulated content exceeds `maxSize`. -/
def safeReadLoop (maxSize : Nat) (acc rest : List Nat) :
    Except ApiError (List Nat) :=
  if maxSize ≤ acc.length then .ok acc
  else
    match rest with
    | [] => .ok acc
    | c :: cs =>
      let acc2 := acc ++ (c :: cs).take 8192
      if maxSize < acc2.length then .error .payloadTooLarge
      else safeReadLoop maxSize acc2 ((c :: cs).drop 8192)
termination_by rest.length
decreasing_by simp [List.length_drop]; omega

/-- `safe_file_read` (`main.py` lines 190-212): decode the stored bytes as
UTF-8 (HTTP 400 on failure) and run the bounded read loop over the decoded
characters. -/
def safe_file_read (maxSize : Nat) (content : List Nat) :
    Except ApiError (List Nat) :=
  match utf8Decode content with
  | none => .error .badRequest
  | some text => safeReadLoop maxSize [] text

/-- Result of the `batch_process` item loop: generation rows staged in the
session, output files written to disk, and the exception that aborted the
loop, if any. -/
structure BatchStep where
  gens : List TTSGeneration
  outs : List String
  err : Option ApiError
  deriving DecidableEq, Repr

/-- The item loop of `batch_process` (`main.py` lines 399-448). `synthOk`
models the external engine (`process_text_to_speech`): whether synthesis of a
text succeeds; `alloc i` is the `uuid4` output id of the `i`-th processed
item. On the first failure the loop stops: a missing file is HTTP 404 naming
the id, a decode failure HTTP 400, an over-long text HTTP 413, an engine
error HTTP 500. -/
def batchItems (uploadFiles : List StoredFile) (maxTextLength : Nat)
    (synthOk : List Nat → Bool) (alloc : Nat → String)
    (batchId : String) (req : BatchRequest) : Nat → List String → BatchStep
  | _, [] => ⟨[], [], none⟩
  | n, fid :: rest =>
    match uploadFiles.find? (fun f => (fid ++ "_utf8_").toList.isPrefixOf f.name.toList) with
    | none => ⟨[], [], some (.notFound fid)⟩
    | some f =>
      match safe_file_read maxTextLength f.content with
      | .error e => ⟨[], [], some e⟩
      | .ok text =>
        if synthOk text then
          let outId := alloc n
          let g : TTSGeneration :=
            { outputId := outId, fileId := some fid, voice := req.voice,
              textLength := text.length, rate := req.rate,
              volume := req.volume, pitch := req.pitch,
              originalName := some (f.name.replace (fid ++ "_utf8_") ""),
              isBatch := true, batchId := some batchId, isDeleted := false }
          let step := batchItems uploadFiles maxTextLength synthOk alloc
            batchId req (n + 1) rest
          ⟨g :: step.gens, (outId ++ ".mp3") :: step.outs, step.err⟩
        else ⟨[], [], some .internalError⟩

/-- `batch_process` (`main.py` lines 372-466). Returns the committed database,
the output files added to the output directory, and the HTTP response. The
`BatchProcess` row is committed up front; staged generation rows reach the
database only through the final commit of the fully successful loop. -/
def batch_process (uploadFiles : List StoredFile) (maxTextLength : Nat)
    (synthOk : List Nat → Bool) (alloc : Nat → String)
    (batchId : String) (db : Db) (req : BatchRequest) :
    Db × List String × Except ApiError (List String) :=
  let newBatch : BatchProcess :=
    { batchId := batchId, fileCount := req.fileIds.length, voice := req.voice,
      rate := req.rate, volume := req.volume, pitch := req.pitch,
      isCompleted := false }
  let db1 : Db := { db with batches := db.batches ++ [newBatch] }
  let step := batchItems uploadFiles maxTextLength synthOk alloc batchId req
    0 req.fileIds
  match step.err with
  | some e => (db1, step.outs, .error e)
  | none =>
    let db2 : Db :=
      { generations := db1.generations ++ step.gens,
        batches := db1.batches.map (fun b =>
          if b.batchId = batchId then { b with isCompleted := true } else b) }
    (db2, step.outs, .ok step.outs)

/-- Number of committed generation rows tagged with a batch id. -/
def countGens (db : Db) (bid : String) : Nat :=
  (db.generations.filter (fun g => g.batchId = some bid)).length

/-- Does a file id resolve and synthesize successfully in the batch loop: a
`{fid}_utf8_*` file exists, its bytes decode as UTF-8 within the length limit
and the engine accepts the text? -/
def resolvesOk (uploadFiles : List StoredFile) (maxTextLength : Nat)
    (synthOk : List Nat → Bool) (fid : String) : Bool :=
  match uploadFiles.find? (fun f => (fid ++ "_utf8_").toList.isPrefixOf f.name.toList) with
  | none => false
  | some f =>
    match safe_file_read maxTextLength f.content with
    | .error _ => false
    | .ok text => synthOk text

/-! ## `DELETE /output/{output_id}` — `delete_output`, `main.py` lines 576-599

Check `{output_id}.mp3` exists (404 otherwise, nothing touched), unlink it,
then flip `is_deleted` on the first generation row with that `output_id` (the
query's `.first()`) and commit. -/

/-- State touched by `delete_output`: output directory and committed
generation rows. -/
structure OutputState where
  outputStore : List String
  generations : List TTSGeneration
  deriving DecidableEq, Repr

/-- Flip `is_deleted` on the first generation row with the given output id
(`db.query(...).filter(...).first()` then `is_deleted = True`). -/
def markOutputDeleted (oid : String) : List TTSGeneration → List TTSGeneration
  | [] => []
  | g :: rest =>
    if g.outputId = oid then { g with isDeleted := true } :: rest
    else g :: markOutputDeleted oid rest

/-- `delete_output` (`main.py` lines 576-599). -/
def delete_output (oid : String) (st : OutputState) :
    OutputState × Except ApiError Unit :=
  if (oid ++ ".mp3") ∈ st.outputStore then
    ({ outputStore := st.outputStore.erase (oid ++ ".mp3"),
       generations := markOutputDeleted oid st.generations }, .ok ())
  else
    (st, .error (.notFound "Output file not found"))

/-! ## Retention sweep — `cleanup_old_files`, `main.py` lines 648-688

One `try` wraps all three directory loops; the `except` only logs. A file is
deleted when it is a regular file and `now - mtime > max_age`. `unlink` can
raise (permission error, file already gone); the raise propagates out of the
loop to the outer handler, so the files after it — in the same directory and
in the directories not yet scanned — are not examined in that sweep. -/

/-- A directory entry as seen by the sweep: name, modification time, whether
it is a regular file, and whether `unlink` on it raises. -/
structure SweepFile where
  name : String
  mtime : Int
  isRegular : Bool
  unlinkFails : Bool
  deriving DecidableEq, Repr

/-- Is a sweep entry old enough to delete (`file_age > max_age`)? -/
def sweepEligible (now maxAge : Int) (f : SweepFile) : Bool :=
  f.isRegular ∧ maxAge < now - f.mtime

/-- One directory loop of `cleanup_old_files`: returns the directory after the
loop, the number of files deleted, and whether an `unlink` raised (in which
case the failing file and everything after it remain). -/
def sweepArea (now maxAge : Int) : List SweepFile → List SweepFile × Nat × Bool
  | [] => ([], 0, false)
  | f :: rest =>
    if sweepEligible now maxAge f then
      if f.unlinkFails then (f :: rest, 0, true)
      else
        let r := sweepArea now maxAge rest
        (r.1, r.2.1 + 1, r.2.2)
    else
      let r := sweepArea now maxAge rest
      (f :: r.1, r.2.1, r.2.2)

/-- `cleanup_old_files` (`main.py` lines 648-688): sweep the upload, output
and temp directories in that order inside a single `try`; the first `unlink`
failure aborts the remainder of the whole sweep (the exception is caught and
logged at function level, so nothing propagates further). Returns the three
directories after the sweep and the number of deletions. -/
def cleanup_old_files (now maxAge : Int) (up out tmp : List SweepFile) :
    (List SweepFile × List SweepFile × List SweepFile) × Nat :=
  let r1 := sweepArea now maxAge up
  if r1.2.2 then ((r1.1, out, tmp), r1.2.1)
  else
    let r2 := sweepArea now maxAge out
    if r2.2.2 then ((r1.1, r2.1, tmp), r1.2.1 + r2.2.1)
    else
      let r3 := sweepArea now maxAge tmp
      ((r1.1, r2.1, r3.1), r1.2.1 + r2.2.1 + r3.2.1)

/-! ## Concrete scenario used to exercise the batch endpoint -/

/-- An upload directory with normalized files for two file ids (contents
`"hi"` and `"h"`). -/
def batchDemoStore : List StoredFile :=
  [⟨"aaaaaaaa-aaaa-aaaa-aaaa-aaaaaaaaaaaa" ++ "_utf8_" ++ "a.txt", [104, 105]⟩,
   ⟨"bbbbbbbb-bbbb-bbbb-bbbb-bbbbbbbbbbbb" ++ "_utf8_" ++ "b.txt", [104]⟩]

/-- A batch request for five ids whose third has no upload file. -/
def batchDemoReq5 : BatchRequest :=
  { fileIds := ["aaaaaaaa-aaaa-aaaa-aaaa-aaaaaaaaaaaa",
                "bbbbbbbb-bbbb-bbbb-bbbb-bbbbbbbbbbbb",
                "cccccccc-cccc-cccc-cccc-cccccccccccc",
                "dddddddd-dddd-dddd-dddd-dddddddddddd",
                "eeeeeeee-eeee-eeee-eeee-eeeeeeeeeeee"],
    voice := "en-US-AndrewNeural",
    rate := "+0%", volume := "+0%", pitch := "+0Hz" }

/-- A batch request for the two ids that do resolve. -/
def batchDemoReq2 : BatchRequest :=
  { fileIds := ["aaaaaaaa-aaaa-aaaa-aaaa-aaaaaaaaaaaa",
                "bbbbbbbb-bbbb-bbbb-bbbb-bbbbbbbbbbbb"],
    voice := "en-US-AndrewNeural",
    rate := "+0%", volume := "+0%", pitch := "+0Hz" }

/-! ## Theorems -/

/-- The scan of `stripMp3` never finds a match crossing the boundary into an
appended `".mp3"`, so appending `".mp3"` only adds one final match: the suffix
is always removed whole. -/
theorem stripMp3_append_mp3 (l : List Char) :
    stripMp3 (l ++ ['.', 'm', 'p', '3']) = stripMp3 l := by
  generalize hn : l.length = n
  induction n using Nat.strong_induction_on generalizing l with
  | _ n ih =>
    subst hn
    rcases l with _ | ⟨a, _ | ⟨b, _ | ⟨c, _ | ⟨d, rest⟩⟩⟩⟩
    · simp [stripMp3]
    · simp [stripMp3]
    · simp [stripMp3]
    · simp [stripMp3]
    · by_cases hc : a = '.' ∧ b = 'm' ∧ c = 'p' ∧ d = '3'
      · show stripMp3 (a :: b :: c :: d :: (rest ++ ['.', 'm', 'p', '3'])) = _
        rw [stripMp3, stripMp3, if_pos hc, if_pos hc]
        exact ih rest.length (by simp; omega) rest rfl
      · show stripMp3 (a :: b :: c :: d :: (rest ++ ['.', 'm', 'p', '3'])) = _
        rw [stripMp3, stripMp3, if_neg hc, if_neg hc]
        have := ih (b :: c :: d :: rest).length (by simp)
          (b :: c :: d :: rest) rfl
        simp only [List.cons_append] at this
        rw [this]

/-- C9: `GET /download/{outputId}` strips every scanned occurrence of `.mp3`
from the supplied id before resolving, so the requests for `{id}` and
`{id}.mp3` resolve the same path and produce the same response — the same
file when present, the same `NotFound` when absent. -/
theorem download_mp3_suffix_invariant (outputStore : List String)
    (gens : List TTSGeneration) (outputId : String) :
    download_file outputStore gens (outputId ++ ".mp3")
      = download_file outputStore gens outputId := by
  have hclean : cleanId (outputId ++ ".mp3") = cleanId outputId := by
    unfold cleanId
    have hlist : (outputId ++ ".mp3").toList
        = outputId.toList ++ ['.', 'm', 'p', '3'] := by
      have : (".mp3" : String).toList = ['.', 'm', 'p', '3'] := by decide
      rw [← this]
      exact String.data_append _ _
    rw [hlist, stripMp3_append_mp3]
  unfold download_file
  rw [hclean]

/-- C10: `POST /create-zip` never fails with `NotFound`: ids whose audio file
is absent are silently skipped, and the archive holds exactly the files of
the requested ids that exist, in request order. -/
theorem create_zip_skips_missing (outputStore : List String)
    (fileIds : List String) :
    create_zip outputStore fileIds =
      .ok ((fileIds.filter
        (fun fid => (fid ++ ".mp3") ∈ outputStore)).map (fun fid => fid ++ ".mp3")) := by
  unfold create_zip
  congr 1
  induction fileIds with
  | nil => rfl
  | cons fid rest ih =>
    by_cases hm : (fid ++ ".mp3") ∈ outputStore
    · simp only [zipEntries, if_pos hm, List.filter_cons, List.map_cons, ih]
      simp [hm]
    · simp only [zipEntries, if_neg hm, List.filter_cons, ih]
      simp [hm]

/-- C6: `/tts` text validation rejects empty or whitespace-only text and text
past the configured maximum length; non-blank text of exactly the maximum
length passes, and text one character over always fails. -/
theorem tts_text_validation (maxTextLength : Nat) (t : List Char) :
    (pyStrip t = [] → isOkE (validateTTSText maxTextLength t) = false) ∧
    (maxTextLength < t.length → isOkE (validateTTSText maxTextLength t) = false) ∧
    (t.length = maxTextLength → pyStrip t ≠ [] →
      isOkE (validateTTSText maxTextLength t) = true) ∧
    (t.length = maxTextLength + 1 →
      isOkE (validateTTSText maxTextLength t) = false) := by
  refine ⟨?_, ?_, ?_, ?_⟩
  · intro hstrip
    simp [validateTTSText, isOkE, hstrip, ite_self]
  · intro hlen
    simp [validateTTSText, isOkE, hlen, ite_self]
  · intro hlen hstrip
    have hne : t ≠ [] := by
      intro he; exact hstrip (by rw [he]; rfl)
    have h1 : ¬ t.length < 1 := by
      cases t with
      | nil => exact absurd rfl hne
      | cons c cs => simp
    have h2 : ¬ maxTextLength < t.length := by omega
    simp [validateTTSText, isOkE, h1, h2, hstrip]
  · intro hlen
    have h2 : maxTextLength < t.length := by omega
    simp [validateTTSText, isOkE, h2, ite_self]

/-- C6 witness: with the maximum at 5, `"abcde"` (exactly 5 characters)
passes, `"abcdef"` (one over) fails, and a whitespace-only text fails. -/
theorem tts_text_validation_witness :
    isOkE (validateTTSText 5 "abcde".toList) = true ∧
    isOkE (validateTTSText 5 "abcdef".toList) = false ∧
    isOkE (validateTTSText 5 "   ".toList) = false :=
  ⟨(tts_text_validation 5 "abcde".toList).2.2.1 (by decide) (by decide),
   (tts_text_validation 5 "abcdef".toList).2.2.2 (by decide),
   (tts_text_validation 5 "   ".toList).1 (by decide)⟩

/-- One unfolding step of `utf8Decode` on a cons cell. -/
theorem utf8Decode_cons (b : Nat) (rest : List Nat) :
    utf8Decode (b :: rest) =
      (if b < 0x80 then (utf8Decode rest).map (b :: ·)
      else if b < 0xC2 then none
      else if b < 0xE0 then
        match rest with
        | b2 :: rest2 =>
          if contByte b2 then
            (utf8Decode rest2).map (((b - 0xC0) * 64 + (b2 - 0x80)) :: ·)
          else none
        | [] => none
      else if b < 0xF0 then
        match rest with
        | b2 :: b3 :: rest3 =>
          if contByte b2 ∧ contByte b3 then
            let c := (b - 0xE0) * 4096 + (b2 - 0x80) * 64 + (b3 - 0x80)
            if c < 0x800 ∨ (0xD800 ≤ c ∧ c < 0xE000) then none
            else (utf8Decode rest3).map (c :: ·)
          else none
        | _ => none
      else if b < 0xF5 then
        match rest with
        | b2 :: b3 :: b4 :: rest4 =>
          if contByte b2 ∧ contByte b3 ∧ contByte b4 then
            let c := (b - 0xF0) * 262144 + (b2 - 0x80) * 4096 +
              (b3 - 0x80) * 64 + (b4 - 0x80)
            if c < 0x10000 ∨ 0x110000 ≤ c then none
            else (utf8Decode rest4).map (c :: ·)
          else none
        | _ => none
      else none) := by
  rcases rest with _ | ⟨b2, _ | ⟨b3, _ | ⟨b4, rest4⟩⟩⟩ <;> rfl

/-- Decoding a UTF-8-encoded scalar consumes exactly its encoding and yields
the scalar back, for every valid scalar and every continuation of the byte
stream. -/
theorem utf8Decode_encodeChar (c : Nat) (h : validScalar c) (bs : List Nat) :
    utf8Decode (utf8EncodeChar c ++ bs) = (utf8Decode bs).map (c :: ·) := by
  obtain ⟨h1, h2⟩ := h
  unfold utf8EncodeChar
  by_cases ha : c < 0x80
  · rw [if_pos ha]
    show utf8Decode (c :: bs) = _
    rw [utf8Decode_cons, if_pos ha]
  · by_cases hb : c < 0x800
    · rw [if_neg ha, if_pos hb]
      show utf8Decode ((0xC0 + c / 64) :: (0x80 + c % 64) :: bs) = _
      rw [utf8Decode_cons, if_neg (by omega), if_neg (by omega), if_pos (by omega)]
      show (if contByte (0x80 + c % 64) then
        (utf8Decode bs).map (((0xC0 + c / 64 - 0xC0) * 64 + (0x80 + c % 64 - 0x80)) :: ·)
        else none) = _
      rw [if_pos (by constructor <;> omega)]
      have hc : (0xC0 + c / 64 - 0xC0) * 64 + (0x80 + c % 64 - 0x80) = c := by
        omega
      rw [hc]
    · by_cases hcc : c < 0x10000
      · rw [if_neg ha, if_neg hb, if_pos hcc]
        show utf8Decode ((0xE0 + c / 4096) :: (0x80 + c / 64 % 64) ::
          (0x80 + c % 64) :: bs) = _
        rw [utf8Decode_cons, if_neg (by omega), if_neg (by omega),
          if_neg (by omega), if_pos (by omega)]
        show (if contByte (0x80 + c / 64 % 64) ∧ contByte (0x80 + c % 64) then
          (if (0xE0 + c / 4096 - 0xE0) * 4096 + (0x80 + c / 64 % 64 - 0x80) * 64
              + (0x80 + c % 64 - 0x80) < 0x800 ∨
            (0xD800 ≤ (0xE0 + c / 4096 - 0xE0) * 4096
              + (0x80 + c / 64 % 64 - 0x80) * 64 + (0x80 + c % 64 - 0x80) ∧
             (0xE0 + c / 4096 - 0xE0) * 4096 + (0x80 + c / 64 % 64 - 0x80) * 64
              + (0x80 + c % 64 - 0x80) < 0xE000) then none
          else (utf8Decode bs).map
            (((0xE0 + c / 4096 - 0xE0) * 4096 + (0x80 + c / 64 % 64 - 0x80) * 64
              + (0x80 + c % 64 - 0x80)) :: ·))
          else none) = _
        rw [if_pos (by exact ⟨⟨by omega, by omega⟩, ⟨by omega, by omega⟩⟩)]
        have hc : (0xE0 + c / 4096 - 0xE0) * 4096 + (0x80 + c / 64 % 64 - 0x80) * 64
            + (0x80 + c % 64 - 0x80) = c := by omega
        rw [hc, if_neg (by omega)]
      · rw [if_neg ha, if_neg hb, if_neg hcc]
        show utf8Decode ((0xF0 + c / 262144) :: (0x80 + c / 4096 % 64) ::
          (0x80 + c / 64 % 64) :: (0x80 + c % 64) :: bs) = _
        rw [utf8Decode_cons, if_neg (by omega), if_neg (by omega),
          if_neg (by omega), if_neg (by omega), if_pos (by omega)]
        show (if contByte (0x80 + c / 4096 % 64) ∧ contByte (0x80 + c / 64 % 64)
            ∧ contByte (0x80 + c % 64) then
          (if (0xF0 + c / 262144 - 0xF0) * 262144 + (0x80 + c / 4096 % 64 - 0x80) * 4096
              + (0x80 + c / 64 % 64 - 0x80) * 64 + (0x80 + c % 64 - 0x80) < 0x10000 ∨
            0x110000 ≤ (0xF0 + c / 262144 - 0xF0) * 262144
              + (0x80 + c / 4096 % 64 - 0x80) * 4096
              + (0x80 + c / 64 % 64 - 0x80) * 64 + (0x80 + c % 64 - 0x80) then none
          else (utf8Decode bs).map
            (((0xF0 + c / 262144 - 0xF0) * 262144 + (0x80 + c / 4096 % 64 - 0x80) * 4096
              + (0x80 + c / 64 % 64 - 0x80) * 64 + (0x80 + c % 64 - 0x80)) :: ·))
          else none) = _
        rw [if_pos (by
          exact ⟨⟨by omega, by omega⟩, ⟨by omega, by omega⟩, ⟨by omega, by omega⟩⟩)]
        have hc : (0xF0 + c / 262144 - 0xF0) * 262144
            + (0x80 + c / 4096 % 64 - 0x80) * 4096
            + (0x80 + c / 64 % 64 - 0x80) * 64 + (0x80 + c % 64 - 0x80) = c := by
          omega
        rw [hc, if_neg (by omega)]

/-- Round-trip fidelity of the UTF-8 codec on sequences of valid scalars. -/
theorem utf8_roundtrip (t : List Nat) (h : ∀ c ∈ t, validScalar c) :
    utf8Decode (utf8Encode t) = some t := by
  induction t with
  | nil => rfl
  | cons c rest ih =>
    have henc : utf8Encode (c :: rest) = utf8EncodeChar c ++ utf8Encode rest := by
      simp [utf8Encode]
    rw [henc, utf8Decode_encodeChar c (h c (by simp)) (utf8Encode rest),
      ih (fun x hx => h x (by simp [hx]))]
    rfl

/-- C3: the encoding-normalization step of `/upload`. A detected label equal
to UTF-8 case-insensitively copies the bytes unchanged; any other label is
decoded with its codec and, on success, the decoded text is stored re-encoded
as UTF-8, so re-decoding the stored bytes as UTF-8 returns exactly the text
the true encoding decoded; a decode failure fails the upload with a client
error instead of storing a guess. -/
theorem upload_encoding_normalization (detected : Option String)
    (decodeExt : String → List Nat → Option (List Nat)) (content : List Nat) :
    (∀ enc, detected = some enc → asciiLower enc = "utf-8" →
      normalizeUpload detected decodeExt content = .ok content) ∧
    (∀ enc text, detected = some enc → asciiLower enc ≠ "utf-8" →
      decodeExt enc content = some text → (∀ c ∈ text, validScalar c) →
      normalizeUpload detected decodeExt content = .ok (utf8Encode text) ∧
        utf8Decode (utf8Encode text) = some text) ∧
    (∀ enc, detected = some enc → asciiLower enc ≠ "utf-8" →
      decodeExt enc content = none →
      normalizeUpload detected decodeExt content = .error .badRequest) := by
  refine ⟨?_, ?_, ?_⟩
  · intro enc hdet hlow
    subst hdet
    simp [normalizeUpload, hlow]
  · intro enc text hdet hlow hdec hval
    subst hdet
    refine ⟨?_, utf8_roundtrip text hval⟩
    simp [normalizeUpload, hlow, hdec]
  · intro enc hdet hlow hdec
    subst hdet
    simp [normalizeUpload, hlow, hdec]

/-- C3 witness: a Latin-1 document `[0x48, 0xE9]` (`"Hé"`) detected as
`latin-1` is stored as its UTF-8 re-encoding and decodes back to the original
text; a document detected as `UTF-8` is copied unchanged; an undecodable
document is rejected with a client error. -/
theorem upload_encoding_normalization_witness :
    (normalizeUpload (some "latin-1") (fun _ => latin1Decode) [0x48, 0xE9]
        = .ok (utf8Encode [0x48, 0xE9]) ∧
      utf8Decode (utf8Encode [0x48, 0xE9]) = some [0x48, 0xE9]) ∧
    utf8Encode [0x48, 0xE9] = [0x48, 0xC3, 0xA9] ∧
    normalizeUpload (some "UTF-8") (fun _ => latin1Decode) [0x48, 0xE9]
      = .ok [0x48, 0xE9] ∧
    normalizeUpload (some "ascii") (fun _ _ => none) [0x48, 0xE9]
      = .error .badRequest :=
  ⟨(upload_encoding_normalization (some "latin-1") (fun _ => latin1Decode)
      [0x48, 0xE9]).2.1 "latin-1" [0x48, 0xE9] rfl (by decide) (by decide)
      (by decide),
   by decide,
   (upload_encoding_normalization (some "UTF-8") (fun _ => latin1Decode)
      [0x48, 0xE9]).1 "UTF-8" rfl (by decide),
   (upload_encoding_normalization (some "ascii") (fun _ _ => none)
      [0x48, 0xE9]).2.2 "ascii" rfl (by decide) rfl⟩

/-- C5: an upload whose payload exceeds `max_file_size_mb * 1024 * 1024`
bytes fails with 413 from `validate_file_size` before any file write or any
`FileUpload` record insert: the returned state is exactly the input state. -/
theorem upload_size_limit_rejected_early (maxFileSizeMb : Nat)
    (reImported : Bool) (detected : Option String)
    (decodeExt : String → List Nat → Option (List Nat))
    (fileId originalFilename : String) (typeOk : Bool)
    (content : List Nat) (st : UploadState)
    (h : maxFileSizeMb * 1024 * 1024 < content.length) :
    upload_file maxFileSizeMb reImported detected decodeExt fileId
      originalFilename typeOk content st = (st, .error .payloadTooLarge) := by
  unfold upload_file
  rw [if_pos h]

/-- C5 witness: with a 0 MB limit, a one-byte payload is rejected with 413
and the upload store and records are untouched. -/
theorem upload_size_limit_rejected_early_witness :
    upload_file 0 false (some "ascii") (fun _ => latin1Decode) "id" "a.txt"
      true [104] ⟨[], []⟩ = (⟨[], []⟩, .error .payloadTooLarge) :=
  upload_size_limit_rejected_early 0 false (some "ascii")
    (fun _ => latin1Decode) "id" "a.txt" true [104] ⟨[], []⟩ (by decide)

/-- C7 (code bug): `main.py` sanitizes the stored filename with
`re.sub(r'[^\w\-_\.]', '_', original_filename)` but never imports `re`
(`mainModuleImports` lists the names bound by lines 1-39), so every upload
that reaches the sanitization line raises `NameError` and is turned into
HTTP 500 by the handler — no sanitized name is ever stored. The sanitization
expression itself, had `re` been imported, keeps only word characters,
hyphens, underscores and dots. -/
theorem upload_sanitize_name_error :
    mainModuleImports.contains "re" = false ∧
    upload_file 10 (mainModuleImports.contains "re") (some "ascii")
      (fun _ => latin1Decode) "id1" "bad name!.txt" true [104] ⟨[], []⟩
      = (⟨[], []⟩, .error .internalError) ∧
    (sanitizeFilename "bad name!.txt").toList.all allowedFilenameChar = true ∧
    sanitizeFilename "bad name!.txt" = "bad_name_.txt" := by
  refine ⟨by decide, ?_, by decide, by decide⟩
  rfl

/-- Flipping the first matching generation row leaves a row with the output
id marked deleted. -/
theorem markOutputDeleted_marks (oid : String) (gens : List TTSGeneration)
    (h : ∃ g ∈ gens, g.outputId = oid) :
    ∃ g ∈ markOutputDeleted oid gens, g.outputId = oid ∧ g.isDeleted = true := by
  induction gens with
  | nil => simp at h
  | cons g rest ih =>
    by_cases hg : g.outputId = oid
    · refine ⟨{ g with isDeleted := true }, ?_, by simpa using hg, rfl⟩
      simp [markOutputDeleted, hg]
    · obtain ⟨g0, hmem, hid⟩ := h
      rcases List.mem_cons.1 hmem with heq | hmem0
      · exact absurd (heq ▸ hid) hg
      · obtain ⟨g1, hmem1, hp⟩ := ih ⟨g0, hmem0, hid⟩
        exact ⟨g1, by simp [markOutputDeleted, hg, hmem1], hp⟩

/-- C8: deleting the same output twice. The first `DELETE /output/{id}` call
removes the audio file, marks the matching generation row deleted and
succeeds; the second call answers `NotFound` and changes nothing. -/
theorem delete_output_twice (oid : String) (st : OutputState)
    (hfile : (oid ++ ".mp3") ∈ st.outputStore)
    (hnodup : st.outputStore.Nodup)
    (hrec : ∃ g ∈ st.generations, g.outputId = oid) :
    (delete_output oid st).2 = .ok () ∧
    (oid ++ ".mp3") ∉ (delete_output oid st).1.outputStore ∧
    (∃ g ∈ (delete_output oid st).1.generations,
      g.outputId = oid ∧ g.isDeleted = true) ∧
    delete_output oid (delete_output oid st).1
      = ((delete_output oid st).1, .error (.notFound "Output file not found")) := by
  have h1 : delete_output oid st
      = ({ outputStore := st.outputStore.erase (oid ++ ".mp3"),
           generations := markOutputDeleted oid st.generations }, .ok ()) := by
    unfold delete_output
    rw [if_pos hfile]
  have hgone : (oid ++ ".mp3") ∉ st.outputStore.erase (oid ++ ".mp3") :=
    hnodup.not_mem_erase
  refine ⟨by rw [h1], by rw [h1]; exact hgone,
    by rw [h1]; exact markOutputDeleted_marks oid st.generations hrec, ?_⟩
  rw [h1]
  unfold delete_output
  rw [if_neg hgone]

/-- C8 witness: output `"x"` with its file and an undeleted generation row;
the first deletion succeeds and flips the row, the second returns `NotFound`
and leaves everything as it was. -/
theorem delete_output_twice_witness :
    (delete_output "x" ⟨["x" ++ ".mp3"],
      [⟨"x", none, "v", 2, "+0%", "+0%", "+0Hz", some "a.txt", false, none,
        false⟩]⟩).2 = .ok () ∧
    ("x" ++ ".mp3") ∉ (delete_output "x" ⟨["x" ++ ".mp3"],
      [⟨"x", none, "v", 2, "+0%", "+0%", "+0Hz", some "a.txt", false, none,
        false⟩]⟩).1.outputStore ∧
    (∃ g ∈ (delete_output "x" ⟨["x" ++ ".mp3"],
      [⟨"x", none, "v", 2, "+0%", "+0%", "+0Hz", some "a.txt", false, none,
        false⟩]⟩).1.generations, g.outputId = "x" ∧ g.isDeleted = true) ∧
    delete_output "x" (delete_output "x" ⟨["x" ++ ".mp3"],
      [⟨"x", none, "v", 2, "+0%", "+0%", "+0Hz", some "a.txt", false, none,
        false⟩]⟩).1
      = ((delete_output "x" ⟨["x" ++ ".mp3"],
      [⟨"x", none, "v", 2, "+0%", "+0%", "+0Hz", some "a.txt", false, none,
        false⟩]⟩).1, .error (.notFound "Output file not found")) :=
  delete_output_twice "x" ⟨["x" ++ ".mp3"],
    [⟨"x", none, "v", 2, "+0%", "+0%", "+0Hz", some "a.txt", false, none,
      false⟩]⟩ (by decide) (by decide) (by decide)

/-- Behavior of one directory loop around the first failing deletion: eligible
files before it are deleted, ineligible ones kept, and the failing file plus
everything after it survive with the abort flag set. -/
theorem sweepArea_abort (now maxAge : Int) (bad : SweepFile)
    (rest : List SweepFile)
    (hbad : sweepEligible now maxAge bad = true) (hfail : bad.unlinkFails = true) :
    ∀ good : List SweepFile,
      (∀ f ∈ good, sweepEligible now maxAge f = true → f.unlinkFails = false) →
      sweepArea now maxAge (good ++ bad :: rest)
        = (good.filter (fun f => ! sweepEligible now maxAge f) ++ bad :: rest,
          (good.filter (fun f => sweepEligible now maxAge f)).length, true) := by
  intro good
  induction good with
  | nil =>
    intro _
    simp [sweepArea, hbad, hfail]
  | cons f g ih =>
    intro hgood
    have hrec := ih (fun x hx he => hgood x (by simp [hx]) he)
    cases helig : sweepEligible now maxAge f with
    | true =>
      have hnf : f.unlinkFails = false := hgood f (by simp) helig
      simp [sweepArea, helig, hnf, hrec, List.filter_cons]
    | false =>
      simp [sweepArea, helig, hrec, List.filter_cons]

/-- C2 counterexample: with retention window 5 at time 10, the upload
directory holds `a` (eligible, deletion fails) followed by `b` (eligible,
deletable) and the output directory holds `c` (eligible, deletable). After
the sweep both `b` and `c` are still present: a single deletion failure
stopped the sweep for the remaining files, which the claim rules out. -/
theorem sweep_failure_claim_counterexample :
    sweepEligible 10 5 ⟨"b", 0, true, false⟩ = true ∧
    SweepFile.unlinkFails ⟨"b", 0, true, false⟩ = false ∧
    sweepEligible 10 5 ⟨"c", 0, true, false⟩ = true ∧
    (cleanup_old_files 10 5 [⟨"a", 0, true, true⟩, ⟨"b", 0, true, false⟩]
      [⟨"c", 0, true, false⟩] []).1.1
      = [⟨"a", 0, true, true⟩, ⟨"b", 0, true, false⟩] ∧
    (cleanup_old_files 10 5 [⟨"a", 0, true, true⟩, ⟨"b", 0, true, false⟩]
      [⟨"c", 0, true, false⟩] []).1.2.1 = [⟨"c", 0, true, false⟩] := by
  decide

/-- C2 (amended): a single deletion failure inside `cleanup_old_files` is
caught and logged only at whole-sweep level: the files already examined
before the failing one are swept normally, but the failing file, the rest of
its directory, and the directories not yet scanned are left untouched until
the next sweep; the exception never propagates out of the function. -/
theorem sweep_failure_aborts_sweep (now maxAge : Int)
    (good rest out tmp : List SweepFile) (bad : SweepFile)
    (hgood : ∀ f ∈ good, sweepEligible now maxAge f = true →
      f.unlinkFails = false)
    (hbad : sweepEligible now maxAge bad = true)
    (hfail : bad.unlinkFails = true) :
    cleanup_old_files now maxAge (good ++ bad :: rest) out tmp
      = ((good.filter (fun f => ! sweepEligible now maxAge f) ++ bad :: rest,
          out, tmp),
        (good.filter (fun f => sweepEligible now maxAge f)).length) := by
  unfold cleanup_old_files
  rw [sweepArea_abort now maxAge bad rest hbad hfail good hgood]
  rfl

/-- C2 witness for the amended theorem: one eligible deletable file and one
too-young file precede the failing file; the sweep deletes the first, keeps
the second, and stops at the failure with the other directories untouched. -/
theorem sweep_failure_aborts_sweep_witness :
    cleanup_old_files 10 5
      ([⟨"g1", 0, true, false⟩, ⟨"g2", 9, true, false⟩] ++
        ⟨"a", 0, true, true⟩ :: [⟨"b", 0, true, false⟩])
      [⟨"c", 0, true, false⟩] []
      = (([⟨"g1", 0, true, false⟩, ⟨"g2", 9, true, false⟩].filter
            (fun f => ! sweepEligible 10 5 f) ++
          ⟨"a", 0, true, true⟩ :: [⟨"b", 0, true, false⟩],
          [⟨"c", 0, true, false⟩], []),
        ([⟨"g1", 0, true, false⟩, ⟨"g2", 9, true, false⟩].filter
          (fun f => sweepEligible 10 5 f)).length) :=
  sweep_failure_aborts_sweep 10 5
    [⟨"g1", 0, true, false⟩, ⟨"g2", 9, true, false⟩]
    [⟨"b", 0, true, false⟩] [⟨"c", 0, true, false⟩] []
    ⟨"a", 0, true, true⟩ (by decide) (by decide) (by decide)

/-- The chunked read loop returns everything when the total fits the limit. -/
theorem safeReadLoop_all (maxSize : Nat) :
    ∀ (rest acc : List Nat), (acc ++ rest).length ≤ maxSize →
      safeReadLoop maxSize acc rest = .ok (acc ++ rest) := by
  intro rest
  generalize hn : rest.length = n
  induction n using Nat.strong_induction_on generalizing rest with
  | _ n ih =>
    subst hn
    intro acc h
    rw [safeReadLoop.eq_def]
    by_cases h1 : maxSize ≤ acc.length
    · rw [if_pos h1]
      have hrest : rest = [] := by
        rw [List.length_append] at h
        exact List.eq_nil_of_length_eq_zero (by omega)
      rw [hrest]
      simp
    · rw [if_neg h1]
      cases rest with
      | nil => simp
      | cons c cs =>
        have h2 : ¬ maxSize < (acc ++ (c :: cs).take 8192).length := by
          rw [List.length_append] at h ⊢
          rw [List.length_take]
          simp only [List.length_cons] at h ⊢
          omega
        show (if maxSize < (acc ++ List.take 8192 (c :: cs)).length then
            Except.error ApiError.payloadTooLarge
          else safeReadLoop maxSize (acc ++ List.take 8192 (c :: cs))
            (List.drop 8192 (c :: cs))) = Except.ok (acc ++ c :: cs)
        rw [if_neg h2]
        have hlt : ((c :: cs).drop 8192).length < (c :: cs).length := by
          rw [List.length_drop]
          simp only [List.length_cons]
          omega
        have happ : (acc ++ (c :: cs).take 8192) ++ (c :: cs).drop 8192
            = acc ++ c :: cs := by
          rw [List.append_assoc, List.take_append_drop]
        have := ih ((c :: cs).drop 8192).length hlt ((c :: cs).drop 8192) rfl
          (acc ++ (c :: cs).take 8192) (by rw [happ]; exact h)
        rw [this, happ]

/-- `safe_file_read` returns the whole decoded text when it decodes as UTF-8
and fits the length limit. -/
theorem safe_file_read_ok (maxSize : Nat) (content text : List Nat)
    (hdec : utf8Decode content = some text) (hlen : text.length ≤ maxSize) :
    safe_file_read maxSize content = .ok text := by
  unfold safe_file_read
  rw [hdec]
  simpa using safeReadLoop_all maxSize text [] (by simpa using hlen)

/-- Introduction rule for `resolvesOk` from its three components. -/
theorem resolvesOk_intro (U : List StoredFile) (maxLen : Nat)
    (synthOk : List Nat → Bool) (fid : String) (f : StoredFile)
    (text : List Nat)
    (hf : U.find? (fun f => (fid ++ "_utf8_").toList.isPrefixOf f.name.toList)
      = some f)
    (hr : safe_file_read maxLen f.content = .ok text)
    (hs : synthOk text = true) :
    resolvesOk U maxLen synthOk fid = true := by
  unfold resolvesOk
  simp only [hf, hr]
  exact hs

/-- When every id resolves and synthesizes, the batch loop finishes without
an exception, stages one generation row and writes one output file per id,
and every staged row carries the shared batch id. -/
theorem batchItems_all_ok (U : List StoredFile) (maxLen : Nat)
    (synthOk : List Nat → Bool) (alloc : Nat → String)
    (batchId : String) (req : BatchRequest) :
    ∀ (ids : List String) (n : Nat),
      ids.all (resolvesOk U maxLen synthOk) = true →
      (batchItems U maxLen synthOk alloc batchId req n ids).err = none ∧
      (batchItems U maxLen synthOk alloc batchId req n ids).gens.length
        = ids.length ∧
      (batchItems U maxLen synthOk alloc batchId req n ids).outs.length
        = ids.length ∧
      ∀ g ∈ (batchItems U maxLen synthOk alloc batchId req n ids).gens,
        g.batchId = some batchId := by
  intro ids
  induction ids with
  | nil =>
    intro n _
    simp [batchItems]
  | cons fid rest ih =>
    intro n hall
    rw [List.all_cons, Bool.and_eq_true] at hall
    obtain ⟨h1, h2⟩ := hall
    unfold resolvesOk at h1
    rcases hfind : U.find?
        (fun f => (fid ++ "_utf8_").toList.isPrefixOf f.name.toList) with _ | f
    · simp only [hfind] at h1
      exact absurd h1 Bool.false_ne_true
    · simp only [hfind] at h1
      rcases hread : safe_file_read maxLen f.content with e | text
      · simp only [hread] at h1
        exact absurd h1 Bool.false_ne_true
      · simp only [hread] at h1
        obtain ⟨herr, hgl, hol, hmem⟩ := ih (n + 1) h2
        simp only [batchItems, hfind, hread, h1, if_true]
        refine ⟨herr, by simpa using hgl, by simpa using hol, ?_⟩
        intro g hg
        rcases List.mem_cons.1 hg with hgeq | hgmem
        · rw [hgeq]
        · exact hmem g hgmem

/-- When the ids before a missing id all resolve and synthesize and the
missing id has no `{id}_utf8_*` file, the batch loop stops at the missing id
with the 404 naming it: the ids after it are never looked at (the loop result
does not depend on them), and exactly one staged row and one output file per
earlier id exist. -/
theorem batchItems_abort_at (U : List StoredFile) (maxLen : Nat)
    (synthOk : List Nat → Bool) (alloc : Nat → String)
    (batchId : String) (req : BatchRequest) (fidMiss : String)
    (hmiss : U.find?
      (fun f => (fidMiss ++ "_utf8_").toList.isPrefixOf f.name.toList) = none) :
    ∀ (pre post : List String) (n : Nat),
      pre.all (resolvesOk U maxLen synthOk) = true →
      (batchItems U maxLen synthOk alloc batchId req n (pre ++ fidMiss :: post)
        = batchItems U maxLen synthOk alloc batchId req n (pre ++ [fidMiss])) ∧
      (batchItems U maxLen synthOk alloc batchId req n
        (pre ++ fidMiss :: post)).err = some (.notFound fidMiss) ∧
      (batchItems U maxLen synthOk alloc batchId req n
        (pre ++ fidMiss :: post)).outs.length = pre.length ∧
      (batchItems U maxLen synthOk alloc batchId req n
        (pre ++ fidMiss :: post)).gens.length = pre.length := by
  intro pre
  induction pre with
  | nil =>
    intro post n _
    simp only [List.nil_append, batchItems]
    rw [hmiss]
    simp
  | cons fid rest ih =>
    intro post n hall
    rw [List.all_cons, Bool.and_eq_true] at hall
    obtain ⟨h1, h2⟩ := hall
    unfold resolvesOk at h1
    rcases hfind : U.find?
        (fun f => (fid ++ "_utf8_").toList.isPrefixOf f.name.toList) with _ | f
    · simp only [hfind] at h1
      exact absurd h1 Bool.false_ne_true
    · simp only [hfind] at h1
      rcases hread : safe_file_read maxLen f.content with e | text
      · simp only [hread] at h1
        exact absurd h1 Bool.false_ne_true
      · simp only [hread] at h1
        obtain ⟨heq, herr, hol, hgl⟩ := ih post (n + 1) h2
        simp only [List.cons_append, batchItems, hfind, hread, h1, if_true,
          List.append_eq]
        refine ⟨by rw [heq], herr, by simpa using hol, by simpa using hgl⟩

/-- After the final commit marks the batch completed, looking the batch id up
in the committed `batch_processes` rows finds the new row with
`is_completed = true`, provided no older row used the id. -/
theorem find_completed (batchId : String) (nb : BatchProcess)
    (hnb : nb.batchId = batchId) :
    ∀ bs : List BatchProcess, bs.all (fun b => b.batchId != batchId) = true →
      ((bs ++ [nb]).map (fun b =>
        if b.batchId = batchId then { b with isCompleted := true } else b)).find?
          (fun b => b.batchId = batchId)
        = some { nb with isCompleted := true } := by
  intro bs
  induction bs with
  | nil =>
    intro _
    simp [List.find?, hnb]
  | cons b rest ih =>
    intro hall
    rw [List.all_cons, Bool.and_eq_true] at hall
    have hb : ¬ (b.batchId = batchId) := by simpa using hall.1
    simp only [List.cons_append, List.map_cons, if_neg hb]
    rw [List.find?_cons_of_neg _ (by simpa using hb)]
    exact ih hall.2

/-- C4: a batch of well-formed file ids that all resolve to normalized upload
files, with an engine that accepts every text, succeeds: the final commit
stores exactly one generation row per id — all tagged with the freshly
allocated batch id and no others — and the batch row for that id ends with
`completed = true` and the request's file count. -/
theorem batch_success_records (uploadFiles : List StoredFile)
    (maxTextLength : Nat) (synthOk : List Nat → Bool) (alloc : Nat → String)
    (batchId : String) (db : Db) (req : BatchRequest)
    (hvalid : validBatchRequest req = true)
    (hall : req.fileIds.all (resolvesOk uploadFiles maxTextLength synthOk) = true)
    (hfreshG : db.generations.all (fun g => g.batchId != some batchId) = true)
    (hfreshB : db.batches.all (fun b => b.batchId != batchId) = true) :
    isOkE (batch_process uploadFiles maxTextLength synthOk alloc batchId db
      req).2.2 = true ∧
    countGens (batch_process uploadFiles maxTextLength synthOk alloc batchId db
      req).1 batchId = req.fileIds.length ∧
    (batch_process uploadFiles maxTextLength synthOk alloc batchId db
      req).1.generations.length = db.generations.length + req.fileIds.length ∧
    (batch_process uploadFiles maxTextLength synthOk alloc batchId db
      req).2.1.length = req.fileIds.length ∧
    (∃ b, (batch_process uploadFiles maxTextLength synthOk alloc batchId db
        req).1.batches.find? (fun b => b.batchId = batchId) = some b ∧
      b.isCompleted = true ∧ b.fileCount = req.fileIds.length) := by
  obtain ⟨herr, hgl, hol, hmem⟩ := batchItems_all_ok uploadFiles maxTextLength
    synthOk alloc batchId req req.fileIds 0 hall
  rcases hstep : batchItems uploadFiles maxTextLength synthOk alloc batchId req
    0 req.fileIds with ⟨gens, outs, err⟩
  rw [hstep] at herr hgl hol hmem
  simp only at herr hgl hol hmem
  subst herr
  simp only [batch_process, hstep]
  refine ⟨rfl, ?_, by simpa using hgl, hol, ?_⟩
  · unfold countGens
    simp only [List.filter_append]
    have hold : db.generations.filter (fun g => g.batchId = some batchId)
        = [] := by
      rw [List.filter_eq_nil_iff]
      intro g hg
      have := List.all_eq_true.1 hfreshG g hg
      simpa using this
    have hnew : gens.filter (fun g => g.batchId = some batchId) = gens := by
      rw [List.filter_eq_self]
      intro g hg
      simpa using hmem g hg
    rw [hold, hnew]
    simpa using hgl
  · refine ⟨⟨batchId, req.fileIds.length, req.voice, req.rate, req.volume,
      req.pitch, true⟩, ?_, rfl, rfl⟩
    have := find_completed batchId
      ⟨batchId, req.fileIds.length, req.voice, req.rate, req.volume,
        req.pitch, false⟩ rfl db.batches hfreshB
    simpa using this

/-- C4 witness: the two-id batch over `batchDemoStore` with an engine that
always succeeds yields a success response, exactly two generation rows tagged
`batch-1`, and the `batch-1` batch row completed with file count 2. -/
theorem batch_success_records_witness :
    isOkE (batch_process batchDemoStore 10000 (fun _ => true) (fun _ => "o")
      "batch-1" ⟨[], []⟩ batchDemoReq2).2.2 = true ∧
    countGens (batch_process batchDemoStore 10000 (fun _ => true) (fun _ => "o")
      "batch-1" ⟨[], []⟩ batchDemoReq2).1 "batch-1"
      = batchDemoReq2.fileIds.length ∧
    (batch_process batchDemoStore 10000 (fun _ => true) (fun _ => "o")
      "batch-1" ⟨[], []⟩ batchDemoReq2).1.generations.length
      = (⟨[], []⟩ : Db).generations.length + batchDemoReq2.fileIds.length ∧
    (batch_process batchDemoStore 10000 (fun _ => true) (fun _ => "o")
      "batch-1" ⟨[], []⟩ batchDemoReq2).2.1.length
      = batchDemoReq2.fileIds.length ∧
    (∃ b, (batch_process batchDemoStore 10000 (fun _ => true) (fun _ => "o")
        "batch-1" ⟨[], []⟩ batchDemoReq2).1.batches.find?
          (fun b => b.batchId = "batch-1") = some b ∧
      b.isCompleted = true ∧ b.fileCount = batchDemoReq2.fileIds.length) := by
  have hA : resolvesOk batchDemoStore 10000 (fun _ => true)
      "aaaaaaaa-aaaa-aaaa-aaaa-aaaaaaaaaaaa" = true :=
    resolvesOk_intro batchDemoStore 10000 (fun _ => true)
      "aaaaaaaa-aaaa-aaaa-aaaa-aaaaaaaaaaaa"
      ⟨"aaaaaaaa-aaaa-aaaa-aaaa-aaaaaaaaaaaa" ++ "_utf8_" ++ "a.txt",
        [104, 105]⟩
      [104, 105] (by decide)
      (safe_file_read_ok 10000 [104, 105] [104, 105] rfl (by decide)) rfl
  have hB : resolvesOk batchDemoStore 10000 (fun _ => true)
      "bbbbbbbb-bbbb-bbbb-bbbb-bbbbbbbbbbbb" = true :=
    resolvesOk_intro batchDemoStore 10000 (fun _ => true)
      "bbbbbbbb-bbbb-bbbb-bbbb-bbbbbbbbbbbb"
      ⟨"bbbbbbbb-bbbb-bbbb-bbbb-bbbbbbbbbbbb" ++ "_utf8_" ++ "b.txt", [104]⟩
      [104] (by decide)
      (safe_file_read_ok 10000 [104] [104] rfl (by decide)) rfl
  have hall : batchDemoReq2.fileIds.all
      (resolvesOk batchDemoStore 10000 (fun _ => true)) = true := by
    simp [batchDemoReq2, hA, hB]
  exact batch_success_records batchDemoStore 10000 (fun _ => true)
    (fun _ => "o") "batch-1" ⟨[], []⟩ batchDemoReq2 (by decide) hall
    (by decide) (by decide)

/-- Looking up a batch id among committed batch rows after appending a fresh
row finds that row unchanged. -/
theorem find_appended (batchId : String) (nb : BatchProcess)
    (hnb : nb.batchId = batchId) :
    ∀ bs : List BatchProcess, bs.all (fun b => b.batchId != batchId) = true →
      (bs ++ [nb]).find? (fun b => b.batchId = batchId) = some nb := by
  intro bs
  induction bs with
  | nil =>
    intro _
    simp [List.find?, hnb]
  | cons b rest ih =>
    intro hall
    rw [List.all_cons, Bool.and_eq_true] at hall
    have hb : ¬ (b.batchId = batchId) := by simpa using hall.1
    rw [List.cons_append, List.find?_cons_of_neg _ (by simpa using hb)]
    exact ih hall.2

/-- C1 (amended): when the ids before position k resolve and synthesize but
the k-th id has no normalized upload file, the batch call fails with 404
naming that id and the ids after position k are never examined (the loop
result is the same as if they were absent); the k-1 output audio files exist,
but *zero* generation rows tagged with the batch id are committed — the k-1
staged rows are discarded when the session closes without the final commit —
and the batch row stays `completed = false`. -/
theorem batch_missing_aborts_discards (uploadFiles : List StoredFile)
    (maxTextLength : Nat) (synthOk : List Nat → Bool) (alloc : Nat → String)
    (batchId : String) (db : Db) (req : BatchRequest)
    (pre post : List String) (fidMiss : String)
    (hids : req.fileIds = pre ++ fidMiss :: post)
    (hpre : pre.all (resolvesOk uploadFiles maxTextLength synthOk) = true)
    (hmiss : uploadFiles.find?
      (fun f => (fidMiss ++ "_utf8_").toList.isPrefixOf f.name.toList) = none)
    (hfreshG : db.generations.all (fun g => g.batchId != some batchId) = true)
    (hfreshB : db.batches.all (fun b => b.batchId != batchId) = true) :
    (batch_process uploadFiles maxTextLength synthOk alloc batchId db
      req).2.2 = .error (.notFound fidMiss) ∧
    countGens (batch_process uploadFiles maxTextLength synthOk alloc batchId db
      req).1 batchId = 0 ∧
    (batch_process uploadFiles maxTextLength synthOk alloc batchId db
      req).2.1.length = pre.length ∧
    (batchItems uploadFiles maxTextLength synthOk alloc batchId req 0
        (pre ++ fidMiss :: post)
      = batchItems uploadFiles maxTextLength synthOk alloc batchId req 0
        (pre ++ [fidMiss])) ∧
    (∃ b, (batch_process uploadFiles maxTextLength synthOk alloc batchId db
        req).1.batches.find? (fun b => b.batchId = batchId) = some b ∧
      b.isCompleted = false) := by
  obtain ⟨heq, herr, hol, hgl⟩ := batchItems_abort_at uploadFiles maxTextLength
    synthOk alloc batchId req fidMiss hmiss pre post 0 hpre
  have hold : db.generations.filter (fun g => g.batchId = some batchId)
      = [] := by
    rw [List.filter_eq_nil_iff]
    intro g hg
    have := List.all_eq_true.1 hfreshG g hg
    simpa using this
  rcases hstep : batchItems uploadFiles maxTextLength synthOk alloc batchId req
    0 (pre ++ fidMiss :: post) with ⟨gens, outs, err⟩
  rw [hstep] at herr hol
  simp only at herr hol
  subst herr
  refine ⟨?_, ?_, ?_, by rw [hstep] at heq; exact heq, ?_⟩
  · simp only [batch_process, hids, hstep]
  · simp only [batch_process, hids, hstep]
    unfold countGens
    simp only [hold]
    rfl
  · simp only [batch_process, hids, hstep]
    exact hol
  · refine ⟨⟨batchId, req.fileIds.length, req.voice, req.rate, req.volume,
      req.pitch, false⟩, ?_, rfl⟩
    simp only [batch_process, hids, hstep]
    have := find_appended batchId
      ⟨batchId, req.fileIds.length, req.voice, req.rate, req.volume,
        req.pitch, false⟩ rfl db.batches hfreshB
    simpa [hids] using this

/-- C1 counterexample: the five-id batch over `batchDemoStore` whose third id
has no upload file, with an engine that never fails, aborts with 404 naming
that id and creates the two output files of the earlier items — but exactly
zero (not two) committed generation rows carry the batch id, because the two
staged rows are discarded when the session closes without the final commit. -/
theorem batch_missing_claim_counterexample :
    (batch_process batchDemoStore 10000 (fun _ => true) (fun _ => "o")
      "batch-1" ⟨[], []⟩ batchDemoReq5).2.2
      = .error (.notFound "cccccccc-cccc-cccc-cccc-cccccccccccc") ∧
    (batch_process batchDemoStore 10000 (fun _ => true) (fun _ => "o")
      "batch-1" ⟨[], []⟩ batchDemoReq5).2.1.length = 2 ∧
    countGens (batch_process batchDemoStore 10000 (fun _ => true) (fun _ => "o")
      "batch-1" ⟨[], []⟩ batchDemoReq5).1 "batch-1" = 0 ∧
    ¬ countGens (batch_process batchDemoStore 10000 (fun _ => true)
      (fun _ => "o") "batch-1" ⟨[], []⟩ batchDemoReq5).1 "batch-1" = 2 := by
  have hA : resolvesOk batchDemoStore 10000 (fun _ => true)
      "aaaaaaaa-aaaa-aaaa-aaaa-aaaaaaaaaaaa" = true :=
    resolvesOk_intro batchDemoStore 10000 (fun _ => true)
      "aaaaaaaa-aaaa-aaaa-aaaa-aaaaaaaaaaaa"
      ⟨"aaaaaaaa-aaaa-aaaa-aaaa-aaaaaaaaaaaa" ++ "_utf8_" ++ "a.txt",
        [104, 105]⟩
      [104, 105] (by decide)
      (safe_file_read_ok 10000 [104, 105] [104, 105] rfl (by decide)) rfl
  have hB : resolvesOk batchDemoStore 10000 (fun _ => true)
      "bbbbbbbb-bbbb-bbbb-bbbb-bbbbbbbbbbbb" = true :=
    resolvesOk_intro batchDemoStore 10000 (fun _ => true)
      "bbbbbbbb-bbbb-bbbb-bbbb-bbbbbbbbbbbb"
      ⟨"bbbbbbbb-bbbb-bbbb-bbbb-bbbbbbbbbbbb" ++ "_utf8_" ++ "b.txt", [104]⟩
      [104] (by decide)
      (safe_file_read_ok 10000 [104] [104] rfl (by decide)) rfl
  have hpre : (["aaaaaaaa-aaaa-aaaa-aaaa-aaaaaaaaaaaa",
      "bbbbbbbb-bbbb-bbbb-bbbb-bbbbbbbbbbbb"] : List String).all
      (resolvesOk batchDemoStore 10000 (fun _ => true)) = true := by
    simp [hA, hB]
  have hmiss : batchDemoStore.find? (fun f =>
      ("cccccccc-cccc-cccc-cccc-cccccccccccc" ++ "_utf8_").toList.isPrefixOf
        f.name.toList) = none := by decide
  obtain ⟨heq, herr, hol, hgl⟩ := batchItems_abort_at batchDemoStore 10000
    (fun _ => true) (fun _ => "o") "batch-1" batchDemoReq5
    "cccccccc-cccc-cccc-cccc-cccccccccccc" hmiss
    ["aaaaaaaa-aaaa-aaaa-aaaa-aaaaaaaaaaaa",
     "bbbbbbbb-bbbb-bbbb-bbbb-bbbbbbbbbbbb"]
    ["dddddddd-dddd-dddd-dddd-dddddddddddd",
     "eeeeeeee-eeee-eeee-eeee-eeeeeeeeeeee"] 0 hpre
  have hlist : batchDemoReq5.fileIds
      = ["aaaaaaaa-aaaa-aaaa-aaaa-aaaaaaaaaaaa",
         "bbbbbbbb-bbbb-bbbb-bbbb-bbbbbbbbbbbb"] ++
        "cccccccc-cccc-cccc-cccc-cccccccccccc" ::
        ["dddddddd-dddd-dddd-dddd-dddddddddddd",
         "eeeeeeee-eeee-eeee-eeee-eeeeeeeeeeee"] := rfl
  rcases hstep : batchItems batchDemoStore 10000 (fun _ => true) (fun _ => "o")
      "batch-1" batchDemoReq5 0
      (["aaaaaaaa-aaaa-aaaa-aaaa-aaaaaaaaaaaa",
        "bbbbbbbb-bbbb-bbbb-bbbb-bbbbbbbbbbbb"] ++
       "cccccccc-cccc-cccc-cccc-cccccccccccc" ::
       ["dddddddd-dddd-dddd-dddd-dddddddddddd",
        "eeeeeeee-eeee-eeee-eeee-eeeeeeeeeeee"]) with ⟨gens, outs, err⟩
  rw [hstep] at herr hol
  simp only at herr hol
  subst herr
  have hcount : countGens (batch_process batchDemoStore 10000 (fun _ => true)
      (fun _ => "o") "batch-1" ⟨[], []⟩ batchDemoReq5).1 "batch-1" = 0 := by
    simp only [batch_process, hlist, hstep]
    rfl
  refine ⟨?_, ?_, hcount, by rw [hcount]; decide⟩
  · simp only [batch_process, hlist, hstep]
  · simp only [batch_process, hlist, hstep]
    simpa using hol

/-- C1 witness for the amended theorem: the five-id scenario instantiated —
404 naming the third id, zero committed generation rows for `batch-1`, two
output files, loop result independent of the ids after the missing one, and
the batch row left uncompleted. -/
theorem batch_missing_aborts_discards_witness :
    (batch_process batchDemoStore 10000 (fun _ => true) (fun _ => "o")
      "batch-1" ⟨[], []⟩ batchDemoReq5).2.2
      = .error (.notFound "cccccccc-cccc-cccc-cccc-cccccccccccc") ∧
    countGens (batch_process batchDemoStore 10000 (fun _ => true) (fun _ => "o")
      "batch-1" ⟨[], []⟩ batchDemoReq5).1 "batch-1" = 0 ∧
    (batch_process batchDemoStore 10000 (fun _ => true) (fun _ => "o")
      "batch-1" ⟨[], []⟩ batchDemoReq5).2.1.length
      = (["aaaaaaaa-aaaa-aaaa-aaaa-aaaaaaaaaaaa",
          "bbbbbbbb-bbbb-bbbb-bbbb-bbbbbbbbbbbb"] : List String).length ∧
    (batchItems batchDemoStore 10000 (fun _ => true) (fun _ => "o") "batch-1"
        batchDemoReq5 0
        (["aaaaaaaa-aaaa-aaaa-aaaa-aaaaaaaaaaaa",
          "bbbbbbbb-bbbb-bbbb-bbbb-bbbbbbbbbbbb"] ++
         "cccccccc-cccc-cccc-cccc-cccccccccccc" ::
         ["dddddddd-dddd-dddd-dddd-dddddddddddd",
          "eeeeeeee-eeee-eeee-eeee-eeeeeeeeeeee"])
      = batchItems batchDemoStore 10000 (fun _ => true) (fun _ => "o") "batch-1"
        batchDemoReq5 0
        (["aaaaaaaa-aaaa-aaaa-aaaa-aaaaaaaaaaaa",
          "bbbbbbbb-bbbb-bbbb-bbbb-bbbbbbbbbbbb"] ++
         ["cccccccc-cccc-cccc-cccc-cccccccccccc"])) ∧
    (∃ b, (batch_process batchDemoStore 10000 (fun _ => true) (fun _ => "o")
        "batch-1" ⟨[], []⟩ batchDemoReq5).1.batches.find?
          (fun b => b.batchId = "batch-1") = some b ∧
      b.isCompleted = false) := by
  have hA : resolvesOk batchDemoStore 10000 (fun _ => true)
      "aaaaaaaa-aaaa-aaaa-aaaa-aaaaaaaaaaaa" = true :=
    resolvesOk_intro batchDemoStore 10000 (fun _ => true)
      "aaaaaaaa-aaaa-aaaa-aaaa-aaaaaaaaaaaa"
      ⟨"aaaaaaaa-aaaa-aaaa-aaaa-aaaaaaaaaaaa" ++ "_utf8_" ++ "a.txt",
        [104, 105]⟩
      [104, 105] (by decide)
      (safe_file_read_ok 10000 [104, 105] [104, 105] rfl (by decide)) rfl
  have hB : resolvesOk batchDemoStore 10000 (fun _ => true)
      "bbbbbbbb-bbbb-bbbb-bbbb-bbbbbbbbbbbb" = true :=
    resolvesOk_intro batchDemoStore 10000 (fun _ => true)
      "bbbbbbbb-bbbb-bbbb-bbbb-bbbbbbbbbbbb"
      ⟨"bbbbbbbb-bbbb-bbbb-bbbb-bbbbbbbbbbbb" ++ "_utf8_" ++ "b.txt", [104]⟩
      [104] (by decide)
      (safe_file_read_ok 10000 [104] [104] rfl (by decide)) rfl
  exact batch_missing_aborts_discards batchDemoStore 10000 (fun _ => true)
    (fun _ => "o") "batch-1" ⟨[], []⟩ batchDemoReq5
    ["aaaaaaaa-aaaa-aaaa-aaaa-aaaaaaaaaaaa",
     "bbbbbbbb-bbbb-bbbb-bbbb-bbbbbbbbbbbb"]
    ["dddddddd-dddd-dddd-dddd-dddddddddddd",
     "eeeeeeee-eeee-eeee-eeee-eeeeeeeeeeee"]
    "cccccccc-cccc-cccc-cccc-cccccccccccc" rfl (by simp [hA, hB]) (by decide)
    (by decide) (by decide)
